import Mathlib

/-!
# Verification of the moneymaker portfolio reconciliation and execution engine

This file gives a shallow embedding, in Lean 4, of the core of the
`claude_moneymaker` trading bot and proves (or refutes) the specified
properties of that core.

Conventions of the embedding:

* Python `float` values are modelled as exact rationals (`ℚ`); the floating
  point arithmetic of the source is modelled as exact arithmetic.
* Python `dict`s are modelled as insertion-ordered association lists
  (`List (String × α)`) with the operations `dictGet`, `dictGetD`,
  `dictInsert` (update in place, else append — matching `d[k] = v`) and
  `dictErase` (matching `del d[k]`).
* Exchange/network calls are suspension points whose results are passed in
  as explicit parameters; a call that raises is modelled by `Option.none`.
* Methods that both mutate state and write rows to the SQLite store return
  the new state together with the row written (`Option` when a code path
  writes no row).

Sources embedded: `moneymaker/models.py`, `moneymaker/core/portfolio.py`,
`moneymaker/core/executor.py`, `moneymaker/core/engine.py`,
`moneymaker/core/allocator.py`.
-/

namespace Moneymaker

/-! ## Ordered dictionaries as association lists -/

/-- `d.get(key)` for a Python dict modelled as an association list. -/
def dictGet {α : Type} : List (String × α) → String → Option α
  | [], _ => none
  | (k, v) :: rest, key => if k = key then some v else dictGet rest key

/-- `d.get(key, default)`. -/
def dictGetD {α : Type} (d : List (String × α)) (key : String) (dflt : α) : α :=
  (dictGet d key).getD dflt

/-- `d[key] = v`: update in place when the key exists, else append. -/
def dictInsert {α : Type} : List (String × α) → String → α → List (String × α)
  | [], key, v => [(key, v)]
  | (k, w) :: rest, key, v =>
    if k = key then (k, v) :: rest else (k, w) :: dictInsert rest key v

/-- `del d[key]`: remove the entry with the given key (keys are unique). -/
def dictErase {α : Type} : List (String × α) → String → List (String × α)
  | [], _ => []
  | (k, w) :: rest, key => if k = key then rest else (k, w) :: dictErase rest key

/-- `key in d`. -/
def dictMem {α : Type} (d : List (String × α)) (key : String) : Prop :=
  (dictGet d key).isSome

/-! ## Data model (`moneymaker/models.py`) -/

inductive OrderSide
  | buy
  | sell
deriving DecidableEq, Repr

inductive OrderType
  | market
  | limit
deriving DecidableEq, Repr

/-- Order status.  The source value `"partially_filled"` is named
`part_filled` here. -/
inductive OrderStatus
  | pending
  | filled
  | part_filled
  | cancelled
  | failed
deriving DecidableEq, Repr

inductive TradingMode
  | paper
  | live
deriving DecidableEq, Repr

/-- `models.Position` (pydantic model; timestamps omitted, they carry no
logic). -/
structure Position where
  symbol : String
  quantity : ℚ
  average_entry_price : ℚ
  current_price : ℚ
  unrealized_pnl : ℚ := 0
  unrealized_pnl_pct : ℚ := 0
deriving DecidableEq, Repr

/-- `Position.update_price` from `models.py`. -/
def Position.update_price (p : Position) (new_price : ℚ) : Position :=
  { p with
    current_price := new_price
    unrealized_pnl := (new_price - p.average_entry_price) * p.quantity
    unrealized_pnl_pct :=
      if 0 < p.average_entry_price then
        (new_price - p.average_entry_price) / p.average_entry_price
      else p.unrealized_pnl_pct }

/-- `models.Order` (timestamps omitted: `created_at`/`executed_at` carry no
logic relevant to the claims). -/
structure Order where
  id : Option String := none
  symbol : String
  side : OrderSide
  order_type : OrderType
  quantity : ℚ
  price : Option ℚ := none
  status : OrderStatus := OrderStatus.pending
  filled_quantity : ℚ := 0
  filled_price : Option ℚ := none
  strategy_name : Option String := none
  reasoning : Option String := none
deriving DecidableEq, Repr

/-- `models.PortfolioState`. -/
structure PortfolioState where
  cash_balance : ℚ
  positions : List (String × Position) := []
  total_value : ℚ := 0
  total_pnl : ℚ := 0
  total_pnl_pct : ℚ := 0
deriving DecidableEq, Repr

/-- `PortfolioState.calculate_totals` from `models.py`. -/
def PortfolioState.calculate_totals (s : PortfolioState) (initial_capital : ℚ) :
    PortfolioState :=
  let positions_value := (s.positions.map (fun e => e.2.quantity * e.2.current_price)).sum
  let total_value := s.cash_balance + positions_value
  let total_pnl := total_value - initial_capital
  { s with
    total_value := total_value
    total_pnl := total_pnl
    total_pnl_pct :=
      if 0 < initial_capital then total_pnl / initial_capital else s.total_pnl_pct }

/-! ## Portfolio Ledger (`moneymaker/core/portfolio.py`) -/

/-- The trading-pair key used throughout the source:
`f"{symbol}/{base}"`. -/
def fullSymbol (sym base : String) : String := sym ++ "/" ++ base

/-- The position value `PortfolioManager.sync_from_exchange` stores for
one balance entry (portfolio.py lines 169-183): a symbol already held
keeps its position record with only the quantity overwritten; a brand-new
symbol gets entry price 0 and current price 0 ("Unknown"). -/
def syncEntry (base : String) (old : List (String × Position))
    (sym : String) (quantity : ℚ) : Position :=
  match dictGet old (fullSymbol sym base) with
  | some pos => { pos with quantity := quantity }
  | none =>
      { symbol := fullSymbol sym base, quantity := quantity,
        average_entry_price := 0, current_price := 0 }

/-- The position loop of `PortfolioManager.sync_from_exchange`
(portfolio.py lines 164-185), written as structural recursion over the
balance items.  A balance entry equal to the base currency or with a
non-positive quantity is skipped. -/
def buildSyncedPositions (base : String) (old : List (String × Position)) :
    List (String × ℚ) → List (String × Position)
  | [] => []
  | (sym, quantity) :: rest =>
    if sym = base ∨ quantity ≤ 0 then buildSyncedPositions base old rest
    else (fullSymbol sym base, syncEntry base old sym quantity)
      :: buildSyncedPositions base old rest

/-- `PortfolioManager.sync_from_exchange` (portfolio.py lines 151-185). -/
def sync_from_exchange (base : String) (s : PortfolioState)
    (exchange_balances : List (String × ℚ)) : PortfolioState :=
  { s with
    cash_balance := dictGetD exchange_balances base 0
    positions := buildSyncedPositions base s.positions exchange_balances }

/-- A row of the `positions` table as written by
`PortfolioManager.update_position` (the `updated_at` timestamp is
omitted). -/
structure PositionRow where
  symbol : String
  quantity : ℚ
  average_entry_price : ℚ
deriving DecidableEq, Repr

/-- `PortfolioManager.update_position` (portfolio.py lines 187-241).
Returns the new state, the `Position` object returned by the method, and
the row upserted into the `positions` table (`none` on the early-return
path that deletes a fully-closed position without writing a row). -/
def update_position (s : PortfolioState) (symbol : String)
    (quantity_delta price : ℚ) : PortfolioState × Position × Option PositionRow :=
  match dictGet s.positions symbol with
  | some pos =>
      let pos :=
        if 0 < quantity_delta then
          -- Buying: update average entry price
          let total_cost := pos.quantity * pos.average_entry_price + quantity_delta * price
          let new_quantity := pos.quantity + quantity_delta
          { pos with
            average_entry_price := if 0 < new_quantity then total_cost / new_quantity else 0
            quantity := new_quantity }
        else
          -- Selling: quantity_delta is negative
          { pos with quantity := pos.quantity + quantity_delta }
      let pos := Position.update_price { pos with current_price := price } price
      if pos.quantity ≤ 0 then
        -- Remove position if fully closed (no row is written on this path)
        ({ s with positions := dictErase s.positions symbol }, pos, none)
      else
        ({ s with positions := dictInsert s.positions symbol pos }, pos,
          some { symbol := symbol, quantity := pos.quantity,
                 average_entry_price := pos.average_entry_price })
  | none =>
      -- New position
      let pos : Position :=
        { symbol := symbol, quantity := quantity_delta,
          average_entry_price := price, current_price := price }
      ({ s with positions := dictInsert s.positions symbol pos }, pos,
        some { symbol := symbol, quantity := pos.quantity,
               average_entry_price := pos.average_entry_price })

/-- `PortfolioManager.update_cash` (portfolio.py lines 243-246). -/
def update_cash (s : PortfolioState) (delta : ℚ) : PortfolioState × ℚ :=
  ({ s with cash_balance := s.cash_balance + delta }, s.cash_balance + delta)

/-- A row of the `portfolio_snapshots` table as written by
`PortfolioManager.take_snapshot` (portfolio.py lines 302-318; the
`timestamp` column is omitted).  Note the schema has no benchmark-price
column. -/
structure SnapshotRow where
  cash_balance : ℚ
  positions_value : ℚ
  total_value : ℚ
  total_pnl : ℚ
  total_pnl_pct : ℚ
deriving DecidableEq, Repr

/-- `PortfolioManager.take_snapshot` (portfolio.py lines 302-318): calls
`get_state` (which recomputes totals) and inserts one snapshot row. -/
def take_snapshot (initial_capital : ℚ) (s : PortfolioState) :
    PortfolioState × SnapshotRow :=
  let state := s.calculate_totals initial_capital
  let positions_value :=
    (state.positions.map (fun e => e.2.quantity * e.2.current_price)).sum
  (state,
    { cash_balance := state.cash_balance
      positions_value := positions_value
      total_value := state.total_value
      total_pnl := state.total_pnl
      total_pnl_pct := state.total_pnl_pct })

/-- The keyword parameters accepted by `PortfolioManager.take_snapshot`,
read off its signature `def take_snapshot(self) -> None` (portfolio.py
line 302): it accepts none. -/
def take_snapshot_keyword_params : List String := []

/-- The keyword arguments the engine passes in the snapshot call
`self.portfolio.take_snapshot(btc_price=btc_price)` (engine.py line 274). -/
def engine_snapshot_call_kwargs : List String := ["btc_price"]

/-- A Python call binds successfully only when every keyword argument
passed names an accepted parameter; otherwise it raises `TypeError`. -/
def pythonCallBinds (accepted passed : List String) : Bool :=
  passed.all (fun k => accepted.contains k)

/-! ## Trade Executor (`moneymaker/core/executor.py`) -/

/-- The credential-relevant outcome of `TradeExecutor._get_exchange`
(executor.py lines 34-73): whether the constructed ccxt client carries API
credentials, and whether the "LIVE MODE WARNING: No API credentials
found!" branch was taken.  Python truthiness of the credential strings is
nonemptiness. -/
structure ExchangeClientConfig where
  has_credentials : Bool
  warned_missing_credentials : Bool
deriving DecidableEq, Repr

/-- `TradeExecutor._get_exchange`, credential handling (executor.py lines
61-71).  In every branch the exchange client is constructed and returned;
no branch raises or refuses. -/
def get_exchange_config (mode : TradingMode) (api_key api_secret : String) :
    ExchangeClientConfig :=
  if mode = TradingMode.live ∧ api_key ≠ "" ∧ api_secret ≠ "" then
    { has_credentials := true, warned_missing_credentials := false }
  else if mode = TradingMode.live then
    { has_credentials := false, warned_missing_credentials := true }
  else
    { has_credentials := false, warned_missing_credentials := false }

/-- `TradeExecutor.sync_balances` (executor.py lines 75-101).  The
`fetch_balance` network call is passed in as `fetch`: `none` models the
call raising, `some totals` models the per-currency `total` amounts it
reported.  Paper mode returns an empty dict without touching the
exchange; live mode filters to strictly positive totals, and maps an
exception to `none`. -/
def sync_balances (mode : TradingMode)
    (fetch : Option (List (String × ℚ))) : Option (List (String × ℚ)) :=
  match mode with
  | TradingMode.paper => some []
  | TradingMode.live =>
    match fetch with
    | none => none
    | some balance => some (balance.filter (fun e => 0 < e.2))

/-- One sell/buy intent produced by the allocation-diff part of
`TradeExecutor.execute_target_allocation` (the dicts appended to `sells`
and `buys`, executor.py lines 194-198 and 213-217). -/
structure TradeIntent where
  symbol : String
  quantity : ℚ
  value : ℚ
deriving DecidableEq, Repr

/-- The `current_values` dict of `execute_target_allocation` (executor.py
lines 171-181): skip the base currency, non-positive quantities, symbols
without a strictly positive price, and dust positions worth less than
$1. -/
def computeCurrentValues (base : String) (prices : List (String × ℚ)) :
    List (String × ℚ) → List (String × ℚ)
  | [] => []
  | (sym, qty) :: rest =>
    if sym ≠ base ∧ 0 < qty then
      match dictGet prices (fullSymbol sym base) with
      | some price =>
          if 0 < price then
            if qty * price < 1 then computeCurrentValues base prices rest
            else (sym, qty * price) :: computeCurrentValues base prices rest
          else computeCurrentValues base prices rest
      | none => computeCurrentValues base prices rest
    else computeCurrentValues base prices rest

/-- The `sells` loop of `execute_target_allocation` (executor.py lines
183-200). -/
def computeSells (base : String) (min_trade_size : ℚ)
    (target_values prices : List (String × ℚ)) :
    List (String × ℚ) → List TradeIntent
  | [] => []
  | (sym, current_val) :: rest =>
    let target_val := dictGetD target_values sym 0
    let diff := current_val - target_val
    if min_trade_size < diff then
      match dictGet prices (fullSymbol sym base) with
      | some price =>
          if 0 < price then
            { symbol := fullSymbol sym base, quantity := diff / price, value := diff } ::
              computeSells base min_trade_size target_values prices rest
          else computeSells base min_trade_size target_values prices rest
      | none => computeSells base min_trade_size target_values prices rest
    else computeSells base min_trade_size target_values prices rest

/-- The `buys` loop of `execute_target_allocation` (executor.py lines
202-219). -/
def computeBuys (base : String) (min_trade_size : ℚ)
    (current_values prices : List (String × ℚ)) :
    List (String × ℚ) → List TradeIntent
  | [] => []
  | (sym, target_val) :: rest =>
    let current_val := dictGetD current_values sym 0
    let diff := target_val - current_val
    if min_trade_size < diff then
      match dictGet prices (fullSymbol sym base) with
      | some price =>
          if 0 < price then
            { symbol := fullSymbol sym base, quantity := diff / price, value := diff } ::
              computeBuys base min_trade_size current_values prices rest
          else computeBuys base min_trade_size current_values prices rest
      | none => computeBuys base min_trade_size current_values prices rest
    else computeBuys base min_trade_size current_values prices rest

/-- The allocation-diff part of `TradeExecutor.execute_target_allocation`
(executor.py lines 161-219): from current holdings, a target allocation
(`symbol`/`percent` pairs), the total portfolio value and a price lookup,
compute the sell intents and the buy intents.  `target_map` is built with
dict-comprehension semantics (later duplicate symbols overwrite). -/
def compute_rebalance_intents (base : String) (min_trade_size : ℚ)
    (current_holdings : List (String × ℚ)) (target_allocation : List (String × ℚ))
    (total_value : ℚ) (prices : List (String × ℚ)) :
    List TradeIntent × List TradeIntent :=
  let target_map := target_allocation.foldl
    (fun m a => dictInsert m a.1 (a.2 / 100)) []
  let target_values := target_map.map (fun e => (e.1, e.2 * total_value))
  let current_values := computeCurrentValues base prices current_holdings
  (computeSells base min_trade_size target_values prices current_values,
   computeBuys base min_trade_size current_values prices target_values)

/-- The `Order(...)` constructed for a sell intent (executor.py lines
223-230). -/
def mkSellOrder (i : TradeIntent) : Order :=
  { symbol := i.symbol, side := OrderSide.sell, order_type := OrderType.market,
    quantity := i.quantity, strategy_name := some "brain",
    reasoning := some "Rebalancing: reducing position" }

/-- The `Order(...)` constructed for a buy intent (executor.py lines
236-243). -/
def mkBuyOrder (i : TradeIntent) : Order :=
  { symbol := i.symbol, side := OrderSide.buy, order_type := OrderType.market,
    quantity := i.quantity, strategy_name := some "brain",
    reasoning := some "Rebalancing: adding to position" }

/-- The fill result a live exchange reports for a created order
(`result` in `_execute_live`), or the call raising (`err`). -/
inductive LiveOrderResult
  | ok (id : String) (status : Option String) (filled : Option ℚ)
      (amount : Option ℚ) (average : Option ℚ) (price : Option ℚ) (cost : Option ℚ)
  | err (msg : String)
deriving DecidableEq, Repr

/-- The per-order environment of one execution: what `fetch_ticker`'s
`last` field reports for the paper path (`none` models the call raising or
a null price, both of which land in the `except` branch), the fresh paper
order id, and the live order result. -/
structure ExecutionEnv where
  ticker_last : Order → Option ℚ
  paper_id : Order → String
  live_result : Order → LiveOrderResult

/-- `TradeExecutor._execute_paper` (executor.py lines 263-290): fill at the
ticker price adjusted by 0.1% slippage against the order direction; any
exception marks the order failed. -/
def execute_paper (env : ExecutionEnv) (order : Order) : Order :=
  match env.ticker_last order with
  | some current_price =>
      let slippage : ℚ := 0.001
      let fill_price :=
        if order.side = OrderSide.buy then current_price * (1 + slippage)
        else current_price * (1 - slippage)
      { order with
        id := some (env.paper_id order)
        status := OrderStatus.filled
        filled_quantity := order.quantity
        filled_price := some fill_price }
  | none =>
      { order with
        status := OrderStatus.failed
        reasoning := some "Paper trade failed" }

/-- `TradeExecutor._execute_live` (executor.py lines 292-355): submit the
order, then map the exchange's reported status/fill price/fill quantity
onto the order, deriving the fill price from `cost / quantity` when the
`average` and `price` fields are absent; any exception marks the order
failed. -/
def execute_live (env : ExecutionEnv) (order : Order) : Order :=
  match env.live_result order with
  | LiveOrderResult.ok id status filled amount average price cost =>
      let filled_quantity := (filled.orElse (fun _ => amount)).getD order.quantity
      let filled_price0 := (average.orElse (fun _ => price)).orElse (fun _ => cost)
      let filled_price :=
        match filled_price0 with
        | some p => some p
        | none =>
            match cost with
            | some c => if filled_quantity ≠ 0 then some (c / filled_quantity) else none
            | none => none
      let order := { order with
        id := some id
        filled_quantity := filled_quantity
        filled_price := some (filled_price.getD 0) }
      if status = some "closed" then { order with status := OrderStatus.filled }
      else if status = some "canceled" then { order with status := OrderStatus.cancelled }
      else if (0 : ℚ) < order.filled_quantity then { order with status := OrderStatus.part_filled }
      else { order with status := OrderStatus.pending }
  | LiveOrderResult.err msg =>
      { order with
        status := OrderStatus.failed
        reasoning := some ("Order failed: " ++ msg) }

/-- `TradeExecutor.execute_order` (executor.py lines 249-261): dispatch on
the trading mode. -/
def execute_order (mode : TradingMode) (env : ExecutionEnv) (order : Order) : Order :=
  match mode with
  | TradingMode.paper => execute_paper env order
  | TradingMode.live => execute_live env order

/-- The execution part of `TradeExecutor.execute_target_allocation`
(executor.py lines 221-247): execute every sell intent, then every buy
intent, appending each resulting order; a failed order is appended like
any other and the loops never break. -/
def execute_target_allocation (mode : TradingMode) (env : ExecutionEnv)
    (base : String) (min_trade_size : ℚ)
    (current_holdings : List (String × ℚ)) (target_allocation : List (String × ℚ))
    (total_value : ℚ) (prices : List (String × ℚ)) : List Order :=
  let intents := compute_rebalance_intents base min_trade_size current_holdings
    target_allocation total_value prices
  intents.1.map (fun i => execute_order mode env (mkSellOrder i)) ++
    intents.2.map (fun i => execute_order mode env (mkBuyOrder i))

/-! ## Cycle orchestrator, balance-sync step (`moneymaker/core/engine.py`) -/

/-- The post-sync price refresh of `TradingEngine.run_cycle` (engine.py
lines 93-106): for every fetched price whose symbol is a held position,
backfill a zero entry price with the current price, then
`update_price`. -/
def applySyncedPrices (positions : List (String × Position))
    (prices : List (String × ℚ)) : List (String × Position) :=
  prices.foldl
    (fun ps e =>
      match dictGet ps e.1 with
      | some pos =>
          let pos :=
            if pos.average_entry_price = 0 then { pos with average_entry_price := e.2 }
            else pos
          dictInsert ps e.1 (pos.update_price e.2)
      | none => ps)
    positions

/-- The balance-sync step of `TradingEngine.run_cycle` (engine.py lines
82-110).  `fetch` is the `fetch_balance` result passed through
`sync_balances`; `price_fetch` is the `get_prices` result used on the
success path.  On a failed sync (`sync_balances` returns `none`) the
portfolio state is left untouched ("Using cached state"); in paper mode
the ledger is likewise untouched. -/
def run_cycle_sync_step (mode : TradingMode) (base : String)
    (fetch : Option (List (String × ℚ))) (price_fetch : List (String × ℚ))
    (s : PortfolioState) : PortfolioState :=
  match mode with
  | TradingMode.paper => s
  | TradingMode.live =>
    match sync_balances TradingMode.live fetch with
    | none => s
    | some exchange_balances =>
        let s := sync_from_exchange base s exchange_balances
        { s with positions := applySyncedPrices s.positions price_fetch }

/-! ## Capital Allocator (`moneymaker/core/allocator.py`) -/

/-- `models.StrategyPerformance` (the fields the allocator logic reads and
writes; `avg_win`/`avg_loss`/`sharpe_ratio`/`max_drawdown` are never
updated by the embedded code paths and are omitted). -/
structure StrategyPerformance where
  strategy_name : String
  total_trades : ℕ := 0
  winning_trades : ℕ := 0
  losing_trades : ℕ := 0
  total_pnl : ℚ := 0
  total_pnl_pct : ℚ := 0
  win_rate : ℚ := 0
  current_allocation : ℚ := 0
deriving DecidableEq, Repr

/-- `StrategyPerformance.update_metrics` from `models.py`. -/
def StrategyPerformance.update_metrics (p : StrategyPerformance)
    (trade_pnl : ℚ) (is_winner : Bool) : StrategyPerformance :=
  let p := { p with
    total_trades := p.total_trades + 1
    total_pnl := p.total_pnl + trade_pnl }
  let p :=
    if is_winner then { p with winning_trades := p.winning_trades + 1 }
    else { p with losing_trades := p.losing_trades + 1 }
  if 0 < p.total_trades then
    { p with win_rate := (p.winning_trades : ℚ) / (p.total_trades : ℚ) }
  else p

/-- The per-strategy effect of `CapitalAllocator.record_trade`
(allocator.py lines 45-58): a trade is a winner iff its pnl is strictly
positive. -/
def StrategyPerformance.record_trade (p : StrategyPerformance)
    (pnl pnl_pct : ℚ) : StrategyPerformance :=
  let is_winner := decide (0 < pnl)
  let p := p.update_metrics pnl is_winner
  { p with total_pnl_pct := p.total_pnl_pct + pnl_pct }

/-- The allocator constructor parameters used by `rebalance` (allocator.py
lines 20-32, with the source's defaults). -/
structure AllocatorConfig where
  min_allocation : ℚ := 0.05
  max_allocation : ℚ := 0.50
  learning_rate : ℚ := 0.1
deriving DecidableEq, Repr

/-- `CapitalAllocator.register_strategy` (allocator.py lines 38-43): the
`_performance` dict gains a fresh record at the given allocation. -/
def register_strategy (perfs : List (String × StrategyPerformance))
    (name : String) (initial_allocation : ℚ) :
    List (String × StrategyPerformance) :=
  dictInsert perfs name
    { strategy_name := name, current_allocation := initial_allocation }

/-- `CapitalAllocator.record_trade` (allocator.py lines 45-58): a trade for
an unregistered strategy is ignored. -/
def allocator_record_trade (perfs : List (String × StrategyPerformance))
    (name : String) (pnl pnl_pct : ℚ) : List (String × StrategyPerformance) :=
  match dictGet perfs name with
  | none => perfs
  | some p => dictInsert perfs name (p.record_trade pnl pnl_pct)

/-- The per-strategy performance score of `CapitalAllocator.rebalance`
(allocator.py lines 106-121), floor included: `max(0.4·winRateScore +
0.4·pnlScore + 0.2·tradeVolumeScore, 0.1)` where a strategy with no trades
scores a neutral 0.5 win rate. -/
def perf_score (p : StrategyPerformance) : ℚ :=
  let win_rate_score := if 0 < p.total_trades then p.win_rate else 0.5
  let pnl_score := 0.5 + p.total_pnl_pct * 2
  let trade_volume_score := min ((p.total_trades : ℚ) / 10) 1
  max (win_rate_score * 0.4 + pnl_score * 0.4 + trade_volume_score * 0.2) 0.1

/-- The mean of the (floored) scores used inside the rebalance loop
(`avg_score`, allocator.py line 128). -/
def mean_score (perfs : List (String × StrategyPerformance)) : ℚ :=
  (perfs.map (fun e => perf_score e.2)).sum / (perfs.length : ℚ)

/-- One strategy's clamped multiplicative update (allocator.py lines
125-137): multiply the current allocation by
`1 + learningRate·(score − meanScore)`, then clamp into
`[minAllocation, maxAllocation]` (the lower bound is applied first, as in
the source). -/
def clamped_update (cfg : AllocatorConfig) (avg_score : ℚ)
    (p : StrategyPerformance) : ℚ :=
  let adjustment := 1 + cfg.learning_rate * (perf_score p - avg_score)
  min cfg.max_allocation (max cfg.min_allocation (p.current_allocation * adjustment))

/-- `CapitalAllocator.rebalance` (allocator.py lines 89-159), returning
the new allocation mapping.  After the clamped multiplicative update the
allocations are normalized to sum to 1 (when their total is positive). -/
def rebalance (cfg : AllocatorConfig)
    (perfs : List (String × StrategyPerformance)) : List (String × ℚ) :=
  if perfs = [] then []
  else
    let avg_score := mean_score perfs
    let new_allocations := perfs.map (fun e => (e.1, clamped_update cfg avg_score e.2))
    let total := (new_allocations.map (fun e => e.2)).sum
    if 0 < total then new_allocations.map (fun e => (e.1, e.2 / total))
    else new_allocations

/-! ## Claim-scenario definitions -/

/-- A pre-existing ledger with three positions, used to instantiate the
failed-sync claim. -/
def examplePortfolioThreePositions : PortfolioState :=
  { cash_balance := 100
    positions :=
      [("BTC/USDT", { symbol := "BTC/USDT", quantity := 1/100,
                      average_entry_price := 60000, current_price := 61000 }),
       ("ETH/USDT", { symbol := "ETH/USDT", quantity := 2,
                      average_entry_price := 3000, current_price := 2900 }),
       ("SOL/USDT", { symbol := "SOL/USDT", quantity := 10,
                      average_entry_price := 150, current_price := 155 })] }

/-- The position value produced by the held-symbol branch of
`update_position` (buy/sell adjustment, then `current_price` assignment
and `update_price`); `update_position_held_eq` proves the method's result
is exactly this value. -/
def heldUpdatedPosition (pos : Position) (d p : ℚ) : Position :=
  let pos1 :=
    if 0 < d then
      let total_cost := pos.quantity * pos.average_entry_price + d * p
      let new_quantity := pos.quantity + d
      { pos with
        average_entry_price := if 0 < new_quantity then total_cost / new_quantity else 0
        quantity := new_quantity }
    else
      { pos with quantity := pos.quantity + d }
  Position.update_price { pos1 with current_price := p } p

/-! ## Capital Allocator scenario (C8) -/

/-- Recording a list of `(pnl, pnl_pct)` trades for one strategy, in
order, via `CapitalAllocator.record_trade`. -/
def recordTrades (name : String) (trades : List (ℚ × ℚ))
    (perfs : List (String × StrategyPerformance)) :
    List (String × StrategyPerformance) :=
  trades.foldl (fun st t => allocator_record_trade st name t.1 t.2) perfs

/-- Three strategies registered at equal initial allocation 1/3. -/
def threeStrategiesRegistered : List (String × StrategyPerformance) :=
  register_strategy (register_strategy (register_strategy [] "A" (1/3)) "B" (1/3)) "C" (1/3)

/-- The allocator state of the rebalance scenario: three strategies at
equal initial allocation, the given winning trades recorded for "A" and
the given losing trades for "B", none for "C". -/
def rebalanceScenarioState (wins losses : List (ℚ × ℚ)) :
    List (String × StrategyPerformance) :=
  recordTrades "B" losses (recordTrades "A" wins threeStrategiesRegistered)

/-- Strategy "A"'s performance record after the winning trades. -/
def scenarioPerfA (wins : List (ℚ × ℚ)) : StrategyPerformance :=
  wins.foldl (fun q t => q.record_trade t.1 t.2)
    { strategy_name := "A", current_allocation := 1/3 }

/-- Strategy "B"'s performance record after the losing trades. -/
def scenarioPerfB (losses : List (ℚ × ℚ)) : StrategyPerformance :=
  losses.foldl (fun q t => q.record_trade t.1 t.2)
    { strategy_name := "B", current_allocation := 1/3 }

/-- Strategy "C"'s performance record: registered, no trades. -/
def scenarioPerfC : StrategyPerformance :=
  { strategy_name := "C", current_allocation := 1/3 }

/-! ## Dictionary lemmas -/

@[simp] theorem dictGet_nil {α : Type} (key : String) :
    dictGet ([] : List (String × α)) key = none := rfl

@[simp] theorem dictGet_cons {α : Type} (k key : String) (v : α) (rest : List (String × α)) :
    dictGet ((k, v) :: rest) key = if k = key then some v else dictGet rest key := rfl

@[simp] theorem dictGetD_nil {α : Type} (key : String) (dflt : α) :
    dictGetD ([] : List (String × α)) key dflt = dflt := rfl

theorem dictGetD_cons {α : Type} (k key : String) (v dflt : α) (rest : List (String × α)) :
    dictGetD ((k, v) :: rest) key dflt =
      if k = key then v else dictGetD rest key dflt := by
  simp only [dictGetD, dictGet]
  split <;> simp

theorem dictGet_dictInsert_self {α : Type} (d : List (String × α)) (k : String) (v : α) :
    dictGet (dictInsert d k v) k = some v := by
  induction d with
  | nil => simp [dictInsert]
  | cons e rest ih =>
      obtain ⟨k0, w⟩ := e
      by_cases h : k0 = k
      · subst h; simp [dictInsert]
      · simp [dictInsert, h, ih]

theorem dictGet_dictInsert_ne {α : Type} (d : List (String × α)) (k k' : String) (v : α)
    (h : k' ≠ k) : dictGet (dictInsert d k v) k' = dictGet d k' := by
  induction d with
  | nil =>
      simp only [dictInsert, dictGet_cons, dictGet_nil, if_neg (Ne.symm h)]
  | cons e rest ih =>
      obtain ⟨k0, w⟩ := e
      by_cases h0 : k0 = k
      · subst h0
        simp [dictInsert, dictGet_cons, Ne.symm h]
      · simp only [dictInsert, if_neg h0, dictGet_cons, ih]

theorem dictInsert_dictInsert {α : Type} (d : List (String × α)) (k : String) (v w : α) :
    dictInsert (dictInsert d k v) k w = dictInsert d k w := by
  induction d with
  | nil => simp [dictInsert]
  | cons e rest ih =>
      obtain ⟨k0, u⟩ := e
      by_cases h : k0 = k
      · subst h; simp [dictInsert]
      · simp [dictInsert, h, ih]

theorem dictInsert_of_get_eq {α : Type} (d : List (String × α)) (k : String) (v : α)
    (h : dictGet d k = some v) : dictInsert d k v = d := by
  induction d with
  | nil => simp at h
  | cons e rest ih =>
      obtain ⟨k0, u⟩ := e
      by_cases h0 : k0 = k
      · subst h0
        have hu : u = v := by simpa using h
        subst hu
        simp [dictInsert]
      · simp only [dictGet_cons, if_neg h0] at h
        simp [dictInsert, h0, ih h]

theorem dictGet_eq_none_of_not_mem_keys {α : Type} (d : List (String × α)) (k : String)
    (h : k ∉ d.map Prod.fst) : dictGet d k = none := by
  induction d with
  | nil => rfl
  | cons e rest ih =>
      obtain ⟨k0, w⟩ := e
      simp only [List.map_cons, List.mem_cons, not_or] at h
      simp only [dictGet_cons, if_neg (fun h0 : k0 = k => h.1 h0.symm)]
      exact ih h.2

theorem dictGet_dictErase_self {α : Type} (d : List (String × α)) (k : String)
    (hnd : (d.map Prod.fst).Nodup) : dictGet (dictErase d k) k = none := by
  induction d with
  | nil => simp [dictErase]
  | cons e rest ih =>
      obtain ⟨k0, w⟩ := e
      simp only [List.map_cons, List.nodup_cons] at hnd
      by_cases h0 : k0 = k
      · subst h0
        simp only [dictErase, if_pos rfl]
        exact dictGet_eq_none_of_not_mem_keys rest k0 hnd.1
      · simp only [dictErase, if_neg h0, dictGet_cons]
        exact ih hnd.2

/-! ## Claim theorems -/

/-- C1: in a live-mode cycle, a failed exchange balance fetch makes
`sync_balances` return the explicit unknown result `none` (never an empty
mapping), and the engine's balance-sync step then leaves the portfolio
ledger — cash balance and every pre-existing position — completely
unchanged; in particular a pre-existing state with 3 positions is
identical before and after the failed sync. -/
theorem failed_balance_sync_leaves_ledger_unchanged :
    sync_balances TradingMode.live none = none ∧
    (∀ (base : String) (price_fetch : List (String × ℚ)) (s : PortfolioState),
      run_cycle_sync_step TradingMode.live base none price_fetch s = s) ∧
    run_cycle_sync_step TradingMode.live "USDT" none []
        examplePortfolioThreePositions = examplePortfolioThreePositions := by
  refine ⟨rfl, fun base price_fetch s => rfl, rfl⟩

/-- C10: a successful sync whose balance mapping has no settlement-currency
(USDT) entry sets the ledger's cash balance to 0 rather than preserving the
previous balance (`exchange_balances.get(base, 0)`). -/
theorem sync_without_base_entry_zeroes_cash (s : PortfolioState)
    (balances : List (String × ℚ)) (h : dictGet balances "USDT" = none) :
    (sync_from_exchange "USDT" s balances).cash_balance = 0 := by
  simp [sync_from_exchange, dictGetD, h]

/-- Witness for C10: a balance mapping holding only BTC zeroes the cash of
a ledger that previously had cash 100. -/
theorem sync_without_base_entry_zeroes_cash_witness :
    dictGet [("BTC", (2 : ℚ))] "USDT" = none ∧
    (sync_from_exchange "USDT" examplePortfolioThreePositions
        [("BTC", 2)]).cash_balance = 0 :=
  ⟨by simp [dictGet], sync_without_base_entry_zeroes_cash _ _ (by simp [dictGet])⟩

theorem update_position_held_eq (s : PortfolioState) (sym : String) (pos : Position)
    (d p : ℚ) (hpos : dictGet s.positions sym = some pos) :
    update_position s sym d p =
      if (heldUpdatedPosition pos d p).quantity ≤ 0 then
        ({ s with positions := dictErase s.positions sym }, heldUpdatedPosition pos d p, none)
      else
        ({ s with positions := dictInsert s.positions sym (heldUpdatedPosition pos d p) },
          heldUpdatedPosition pos d p,
          some { symbol := sym, quantity := (heldUpdatedPosition pos d p).quantity,
                 average_entry_price := (heldUpdatedPosition pos d p).average_entry_price }) := by
  simp only [update_position, hpos, heldUpdatedPosition]

theorem heldUpdatedPosition_quantity (pos : Position) (d p : ℚ) :
    (heldUpdatedPosition pos d p).quantity = pos.quantity + d := by
  unfold heldUpdatedPosition Position.update_price
  split <;> rfl

theorem update_position_held_buy (s : PortfolioState) (sym : String) (pos : Position)
    (d p : ℚ) (hpos : dictGet s.positions sym = some pos) (hq : 0 < pos.quantity)
    (hd : 0 < d) :
    (update_position s sym d p).2.1.average_entry_price
        = (pos.quantity * pos.average_entry_price + d * p) / (pos.quantity + d)
    ∧ (update_position s sym d p).2.1.quantity = pos.quantity + d
    ∧ (update_position s sym d p).2.1.current_price = p := by
  have hnq : 0 < pos.quantity + d := by linarith
  simp only [update_position, hpos, if_pos hd, if_pos hnq]
  split <;> simp [Position.update_price]

theorem update_position_held_sell (s : PortfolioState) (sym : String) (pos : Position)
    (d p : ℚ) (hpos : dictGet s.positions sym = some pos) (hd : d < 0) :
    (update_position s sym d p).2.1.average_entry_price = pos.average_entry_price
    ∧ (update_position s sym d p).2.1.quantity = pos.quantity + d
    ∧ (update_position s sym d p).2.1.current_price = p := by
  simp only [update_position, hpos, if_neg (by linarith : ¬ (0 : ℚ) < d)]
  split <;> simp [Position.update_price]

theorem update_position_new (s : PortfolioState) (sym : String)
    (d p : ℚ) (hpos : dictGet s.positions sym = none) :
    (update_position s sym d p).2.1
        = { symbol := sym, quantity := d, average_entry_price := p, current_price := p }
    ∧ (update_position s sym d p).2.2
        = some { symbol := sym, quantity := d, average_entry_price := p }
    ∧ (update_position s sym d p).1.positions
        = dictInsert s.positions sym
            { symbol := sym, quantity := d, average_entry_price := p, current_price := p } := by
  simp [update_position, hpos]

theorem update_position_held_state (s : PortfolioState) (sym : String) (pos : Position)
    (d p : ℚ) (hpos : dictGet s.positions sym = some pos) (hq : 0 < pos.quantity + d) :
    (update_position s sym d p).1.positions
      = dictInsert s.positions sym ((update_position s sym d p).2.1) := by
  rw [update_position_held_eq s sym pos d p hpos]
  rw [if_neg (by rw [heldUpdatedPosition_quantity]; exact not_le.mpr hq)]

theorem update_position_held_row_pos (s : PortfolioState) (sym : String) (pos : Position)
    (d p : ℚ) (hpos : dictGet s.positions sym = some pos)
    (row : PositionRow) (hrow : (update_position s sym d p).2.2 = some row) :
    0 < row.quantity := by
  rw [update_position_held_eq s sym pos d p hpos] at hrow
  split at hrow
  · simp at hrow
  · rename_i hgt
    push_neg at hgt
    simp only [Option.some.injEq] at hrow
    subst hrow
    exact hgt

theorem update_position_held_closed (s : PortfolioState) (sym : String) (pos : Position)
    (d p : ℚ) (hpos : dictGet s.positions sym = some pos)
    (hclosed : (update_position s sym d p).2.1.quantity ≤ 0) :
    (update_position s sym d p).2.2 = none
    ∧ (update_position s sym d p).1.positions = dictErase s.positions sym := by
  rw [update_position_held_eq s sym pos d p hpos] at *
  split at hclosed
  · rename_i hle
    rw [if_pos hle]
    exact ⟨rfl, rfl⟩
  · rename_i hgt
    simp only at hclosed
    exact absurd hclosed hgt

/-- C2: for a held position with positive quantity, a buy
(`quantityDelta > 0`) at price `p` blends the cost basis to
`(oldQty·oldAvg + delta·p)/(oldQty + delta)`; a sell (`quantityDelta < 0`)
only decrements the quantity and leaves the cost basis unchanged; both set
the position's current price to the supplied price; and starting from a
symbol not yet held, two buys of `q1@p1` then `q2@p2` yield average entry
price `(q1·p1 + q2·p2)/(q1+q2)`, which a subsequent sell does not
change. -/
theorem update_position_cost_basis_spec
    (s : PortfolioState) (sym : String) (pos : Position) (d p : ℚ)
    (hpos : dictGet s.positions sym = some pos) (hq : 0 < pos.quantity)
    (s0 : PortfolioState) (sym0 : String) (q1 p1 q2 p2 dsell psell : ℚ)
    (h0 : dictGet s0.positions sym0 = none)
    (hq1 : 0 < q1) (hq2 : 0 < q2) (hds : dsell < 0) :
    (0 < d →
      (update_position s sym d p).2.1.average_entry_price
          = (pos.quantity * pos.average_entry_price + d * p) / (pos.quantity + d)
        ∧ (update_position s sym d p).2.1.quantity = pos.quantity + d
        ∧ (update_position s sym d p).2.1.current_price = p)
    ∧ (d < 0 →
      (update_position s sym d p).2.1.average_entry_price = pos.average_entry_price
        ∧ (update_position s sym d p).2.1.quantity = pos.quantity + d
        ∧ (update_position s sym d p).2.1.current_price = p)
    ∧ ((update_position (update_position s0 sym0 q1 p1).1 sym0 q2 p2).2.1.average_entry_price
          = (q1 * p1 + q2 * p2) / (q1 + q2)
        ∧ (update_position
            (update_position (update_position s0 sym0 q1 p1).1 sym0 q2 p2).1
            sym0 dsell psell).2.1.average_entry_price
          = (q1 * p1 + q2 * p2) / (q1 + q2)) := by
  obtain ⟨hnew_pos, -, hnew_state⟩ := update_position_new s0 sym0 q1 p1 h0
  set pos1 : Position :=
    { symbol := sym0, quantity := q1, average_entry_price := p1, current_price := p1 }
  have hget1 : dictGet (update_position s0 sym0 q1 p1).1.positions sym0 = some pos1 := by
    rw [hnew_state]; exact dictGet_dictInsert_self _ _ _
  have hquant1 : pos1.quantity = q1 := rfl
  obtain ⟨havg2, hquant2, -⟩ :=
    update_position_held_buy (update_position s0 sym0 q1 p1).1 sym0 pos1 q2 p2 hget1
      (by rw [hquant1]; exact hq1) hq2
  have havg2' : (update_position (update_position s0 sym0 q1 p1).1 sym0 q2 p2).2.1.average_entry_price
      = (q1 * p1 + q2 * p2) / (q1 + q2) := by
    rw [havg2]
  have hget2 : dictGet (update_position (update_position s0 sym0 q1 p1).1 sym0 q2 p2).1.positions sym0
      = some ((update_position (update_position s0 sym0 q1 p1).1 sym0 q2 p2).2.1) := by
    rw [update_position_held_state (update_position s0 sym0 q1 p1).1 sym0 pos1 q2 p2 hget1
      (by rw [hquant1]; positivity)]
    exact dictGet_dictInsert_self _ _ _
  obtain ⟨havg3, -, -⟩ :=
    update_position_held_sell (update_position (update_position s0 sym0 q1 p1).1 sym0 q2 p2).1
      sym0 _ dsell psell hget2 hds
  exact ⟨fun hd => update_position_held_buy s sym pos d p hpos hq hd,
    fun hd => update_position_held_sell s sym pos d p hpos hd,
    havg2', by rw [havg3, havg2']⟩

/-- Witness for C2: a held BTC/USDT position of 1 unit at cost basis 100,
bought into with 1 more unit at price 200, has blended cost basis 150; a
sell leaves the basis alone; and two buys 1@100 then 3@200 from scratch
give basis 175, unchanged by a later sell. -/
theorem update_position_cost_basis_spec_witness :
    let sW : PortfolioState :=
      { cash_balance := 0
        positions := [("BTC/USDT", { symbol := "BTC/USDT", quantity := 1,
                                     average_entry_price := 100, current_price := 100 })] }
    ((0 : ℚ) < 2 →
      (update_position sW "BTC/USDT" 2 200).2.1.average_entry_price = (1 * 100 + 2 * 200) / (1 + 2)
        ∧ (update_position sW "BTC/USDT" 2 200).2.1.quantity = 1 + 2
        ∧ (update_position sW "BTC/USDT" 2 200).2.1.current_price = 200)
    ∧ ((2 : ℚ) < 0 →
      (update_position sW "BTC/USDT" 2 200).2.1.average_entry_price = 100
        ∧ (update_position sW "BTC/USDT" 2 200).2.1.quantity = 1 + 2
        ∧ (update_position sW "BTC/USDT" 2 200).2.1.current_price = 200)
    ∧ ((update_position (update_position { cash_balance := 0 } "ETH/USDT" 1 100).1
          "ETH/USDT" 3 200).2.1.average_entry_price = (1 * 100 + 3 * 200) / (1 + 3)
        ∧ (update_position
            (update_position (update_position { cash_balance := 0 } "ETH/USDT" 1 100).1
              "ETH/USDT" 3 200).1 "ETH/USDT" (-2) 250).2.1.average_entry_price
          = (1 * 100 + 3 * 200) / (1 + 3)) := by
  intro sW
  have h := update_position_cost_basis_spec sW "BTC/USDT"
    { symbol := "BTC/USDT", quantity := 1, average_entry_price := 100, current_price := 100 }
    2 200 (by simp [dictGet]) (by norm_num)
    { cash_balance := 0 } "ETH/USDT" 1 100 3 200 (-2) 250 (by simp [dictGet])
    (by norm_num) (by norm_num) (by norm_num)
  refine ⟨?_, ?_, ?_⟩
  · intro h2
    exact h.1 h2
  · intro h2
    norm_num at h2
  · exact h.2.2

/-- Counterexample to C5 as stated: `update_position` on a symbol that is
not currently held, with a negative `quantityDelta`, creates a brand-new
position with negative quantity, keeps it in the ledger, and persists a
`positions` row with quantity `-1 ≤ 0`. -/
theorem update_position_persists_nonpositive_quantity :
    (update_position { cash_balance := 0 } "ETH/USDT" (-1) 10).2.2
        = some { symbol := "ETH/USDT", quantity := -1, average_entry_price := 10 }
    ∧ dictGet (update_position { cash_balance := 0 } "ETH/USDT" (-1) 10).1.positions "ETH/USDT"
        = some { symbol := "ETH/USDT", quantity := -1, average_entry_price := 10,
                 current_price := 10 }
    ∧ ((-1 : ℚ) ≤ 0) := by
  refine ⟨?_, ?_, by norm_num⟩ <;>
    simp [update_position, dictGet, dictInsert]

/-- C5, amended: for a symbol currently held, the persisted `positions`
row always has strictly positive quantity, and a resulting quantity `≤ 0`
removes the position from the ledger without persisting any row; for a
symbol not currently held the same holds provided `quantityDelta > 0`.
(The unamended claim fails when a not-held symbol is updated with
`quantityDelta ≤ 0`: see the counterexample.) -/
theorem update_position_never_persists_nonpositive_quantity
    (s : PortfolioState) (sym : String) (d p : ℚ)
    (hnd : (s.positions.map Prod.fst).Nodup) :
    (∀ pos, dictGet s.positions sym = some pos →
      (∀ row, (update_position s sym d p).2.2 = some row → 0 < row.quantity)
      ∧ ((update_position s sym d p).2.1.quantity ≤ 0 →
          (update_position s sym d p).2.2 = none
          ∧ dictGet (update_position s sym d p).1.positions sym = none))
    ∧ (dictGet s.positions sym = none → 0 < d →
        ∀ row, (update_position s sym d p).2.2 = some row → 0 < row.quantity) := by
  constructor
  · intro pos hpos
    refine ⟨fun row hrow => update_position_held_row_pos s sym pos d p hpos row hrow, ?_⟩
    intro hclosed
    obtain ⟨hnone, herase⟩ := update_position_held_closed s sym pos d p hpos hclosed
    exact ⟨hnone, herase ▸ dictGet_dictErase_self s.positions sym hnd⟩
  · intro hpos hd row hrow
    obtain ⟨-, hrow', -⟩ := update_position_new s sym d p hpos
    rw [hrow'] at hrow
    simp only [Option.some.injEq] at hrow
    subst hrow
    exact hd

/-- Witness for C5 (amended): selling the full 5-unit ETH/USDT holding
removes the position and writes no row; and a fresh buy persists a
positive-quantity row. -/
theorem update_position_never_persists_nonpositive_quantity_witness :
    let sW : PortfolioState :=
      { cash_balance := 0
        positions := [("ETH/USDT", { symbol := "ETH/USDT", quantity := 5,
                                     average_entry_price := 3, current_price := 3 })] }
    (update_position sW "ETH/USDT" (-5) 4).2.1.quantity ≤ 0
    ∧ (update_position sW "ETH/USDT" (-5) 4).2.2 = none
    ∧ dictGet (update_position sW "ETH/USDT" (-5) 4).1.positions "ETH/USDT" = none := by
  intro sW
  have hq : (update_position sW "ETH/USDT" (-5) 4).2.1.quantity ≤ 0 := by
    norm_num [update_position, dictGet, Position.update_price]
  have h := (update_position_never_persists_nonpositive_quantity sW "ETH/USDT" (-5) 4
      (by simp)).1
    { symbol := "ETH/USDT", quantity := 5, average_entry_price := 3, current_price := 3 }
    (by simp [dictGet])
  exact ⟨hq, (h.2 hq).1, (h.2 hq).2⟩

/-- C9: the persisted snapshot schema and `take_snapshot` signature have no
benchmark price: the engine's call `take_snapshot(btc_price=...)`
(engine.py line 274) passes a keyword argument the method does not accept,
so the call cannot bind (it raises `TypeError` at runtime); the claimed
optional benchmark parameter does not exist in the code. -/
theorem engine_snapshot_call_does_not_bind :
    pythonCallBinds take_snapshot_keyword_params engine_snapshot_call_kwargs = false :=
  rfl

/-- Counterexample to C3 as stated: with total value $1000, min trade size
$10, a current ETH holding worth $0.50 (below the $1 dust threshold, ETH
price $0.50 per unit) and target `{ETH: 50%}`, the diff produces a buy
intent for $500 of ETH — not zero intents.  Dust exclusion only removes
the symbol from the sell side; the buy side treats it as not held at
all. -/
theorem dust_holding_still_produces_buy_intent :
    compute_rebalance_intents "USDT" 10 [("ETH", 1)] [("ETH", 50)] 1000 [("ETH/USDT", 1/2)]
      = ([], [{ symbol := "ETH/USDT", quantity := 1000, value := 500 }]) := by
  have hcv : computeCurrentValues "USDT" [("ETH/USDT", 1/2)] [("ETH", 1)] = [] := by
    simp [computeCurrentValues, dictGet, fullSymbol] <;> norm_num
  simp only [compute_rebalance_intents, hcv]
  refine Prod.ext rfl ?_
  simp [computeBuys, dictGet, dictGetD, fullSymbol, dictInsert] <;> norm_num

/-- C3, amended: with total value $1000, min trade size $10 and dust
threshold $1, a current ETH holding worth $15 against target `{ETH: 0%}`
produces exactly one sell intent for $15 of ETH (`15/price` units) and no
buys; a current ETH holding worth $0.50 (below dust) is excluded from the
sell side — zero sell intents regardless of the target — and produces zero
intents overall when the target allocates 0% to ETH.  (The unamended
"zero intents regardless of the target" fails: a large enough target
percent still produces a buy intent — see the counterexample.) -/
theorem allocation_diff_dust_and_sell_spec
    (pe q15 qd : ℚ) (hpe : 0 < pe) (h15 : q15 * pe = 15) (hdust : qd * pe = 1/2) :
    compute_rebalance_intents "USDT" 10 [("ETH", q15)] [("ETH", 0)] 1000 [("ETH/USDT", pe)]
      = ([{ symbol := "ETH/USDT", quantity := 15 / pe, value := 15 }], [])
    ∧ (∀ target : List (String × ℚ),
        (compute_rebalance_intents "USDT" 10 [("ETH", qd)] target 1000
          [("ETH/USDT", pe)]).1 = [])
    ∧ compute_rebalance_intents "USDT" 10 [("ETH", qd)] [("ETH", 0)] 1000 [("ETH/USDT", pe)]
      = ([], []) := by
  have hq15 : 0 < q15 := by nlinarith
  have hqd : 0 < qd := by nlinarith
  have hcv15 : computeCurrentValues "USDT" [("ETH/USDT", pe)] [("ETH", q15)]
      = [("ETH", 15)] := by
    simp [computeCurrentValues, dictGet, fullSymbol, hq15, hpe, h15] <;> norm_num
  have hcvd : computeCurrentValues "USDT" [("ETH/USDT", pe)] [("ETH", qd)] = [] := by
    simp [computeCurrentValues, dictGet, fullSymbol, hqd, hpe, hdust] <;> norm_num
  refine ⟨?_, ?_, ?_⟩
  · simp only [compute_rebalance_intents, hcv15]
    simp [computeSells, computeBuys, dictGet, dictGetD, fullSymbol, dictInsert, hpe] <;> norm_num
  · intro target
    simp only [compute_rebalance_intents, hcvd]
    rfl
  · simp only [compute_rebalance_intents, hcvd]
    simp [computeSells, computeBuys, dictGet, dictGetD, fullSymbol, dictInsert] <;> norm_num

/-- Witness for C3 (amended): ETH price $0.50, 30 units (worth $15) for
the sell scenario and 1 unit (worth $0.50) for the dust scenario. -/
theorem allocation_diff_dust_and_sell_spec_witness :
    compute_rebalance_intents "USDT" 10 [("ETH", 30)] [("ETH", 0)] 1000 [("ETH/USDT", 1/2)]
      = ([{ symbol := "ETH/USDT", quantity := 15 / (1/2), value := 15 }], [])
    ∧ (∀ target : List (String × ℚ),
        (compute_rebalance_intents "USDT" 10 [("ETH", 1)] target 1000
          [("ETH/USDT", 1/2)]).1 = [])
    ∧ compute_rebalance_intents "USDT" 10 [("ETH", 1)] [("ETH", 0)] 1000 [("ETH/USDT", 1/2)]
      = ([], []) :=
  allocation_diff_dust_and_sell_spec (1/2) 30 1 (by norm_num) (by norm_num) (by norm_num)

theorem execute_order_preserves_side (mode : TradingMode) (env : ExecutionEnv) (o : Order) :
    (execute_order mode env o).side = o.side := by
  cases mode
  · unfold execute_order execute_paper
    cases env.ticker_last o <;> rfl
  · unfold execute_order execute_live
    cases env.live_result o
    · simp only
      split_ifs <;> rfl
    · rfl

/-- C4: `execute_target_allocation` returns one order per intent — sells
first, then buys — for every execution environment, in particular for
environments in which individual orders fail: the `i`-th returned order is
a sell exactly when `i` indexes a sell intent, and the returned list
always has exactly as many orders as there are intents (a failed order
never suppresses a later one). -/
theorem execute_target_allocation_sells_before_buys
    (mode : TradingMode) (env : ExecutionEnv) (base : String) (mts total : ℚ)
    (holdings target prices : List (String × ℚ)) :
    (execute_target_allocation mode env base mts holdings target total prices).length
        = (compute_rebalance_intents base mts holdings target total prices).1.length
          + (compute_rebalance_intents base mts holdings target total prices).2.length
    ∧ ∀ (i : ℕ)
        (h : i < (execute_target_allocation mode env base mts holdings target total prices).length),
        (((execute_target_allocation mode env base mts holdings target total prices).get
            ⟨i, h⟩).side = OrderSide.sell
          ↔ i < (compute_rebalance_intents base mts holdings target total prices).1.length) := by
  constructor
  · simp [execute_target_allocation]
  · intro i h
    by_cases hi : i < (compute_rebalance_intents base mts holdings target total prices).1.length
    · have hlen : i < ((compute_rebalance_intents base mts holdings target total
          prices).1.map (fun t => execute_order mode env (mkSellOrder t))).length := by
        simpa using hi
      simp only [execute_target_allocation, List.get_eq_getElem]
      rw [List.getElem_append_left hlen]
      simp only [List.getElem_map]
      rw [execute_order_preserves_side]
      simp [mkSellOrder, hi]
    · have hlen : ¬ i < ((compute_rebalance_intents base mts holdings target total
          prices).1.map (fun t => execute_order mode env (mkSellOrder t))).length := by
        simpa using hi
      simp only [execute_target_allocation, List.get_eq_getElem]
      rw [List.getElem_append_right (by simpa using hlen)]
      simp only [List.getElem_map]
      rw [execute_order_preserves_side]
      simp [mkBuyOrder, hi]

/-- Witness for C4: a concrete paper-mode execution (ETH held, target
all-BTC) instantiating the sells-before-buys and completeness
properties. -/
theorem execute_target_allocation_sells_before_buys_witness :
    (execute_target_allocation TradingMode.paper
        { ticker_last := fun _ => some 100, paper_id := fun _ => "paper_w",
          live_result := fun _ => LiveOrderResult.err "unused" }
        "USDT" 10 [("ETH", 30)] [("BTC", 50)] 1000
        [("ETH/USDT", 1/2), ("BTC/USDT", 50000)]).length
      = (compute_rebalance_intents "USDT" 10 [("ETH", 30)] [("BTC", 50)] 1000
          [("ETH/USDT", 1/2), ("BTC/USDT", 50000)]).1.length
        + (compute_rebalance_intents "USDT" 10 [("ETH", 30)] [("BTC", 50)] 1000
            [("ETH/USDT", 1/2), ("BTC/USDT", 50000)]).2.length
    ∧ ∀ (i : ℕ)
        (h : i < (execute_target_allocation TradingMode.paper
          { ticker_last := fun _ => some 100, paper_id := fun _ => "paper_w",
            live_result := fun _ => LiveOrderResult.err "unused" }
          "USDT" 10 [("ETH", 30)] [("BTC", 50)] 1000
          [("ETH/USDT", 1/2), ("BTC/USDT", 50000)]).length),
        (((execute_target_allocation TradingMode.paper
            { ticker_last := fun _ => some 100, paper_id := fun _ => "paper_w",
              live_result := fun _ => LiveOrderResult.err "unused" }
            "USDT" 10 [("ETH", 30)] [("BTC", 50)] 1000
            [("ETH/USDT", 1/2), ("BTC/USDT", 50000)]).get ⟨i, h⟩).side = OrderSide.sell
          ↔ i < (compute_rebalance_intents "USDT" 10 [("ETH", 30)] [("BTC", 50)] 1000
              [("ETH/USDT", 1/2), ("BTC/USDT", 50000)]).1.length) :=
  execute_target_allocation_sells_before_buys TradingMode.paper
    { ticker_last := fun _ => some 100, paper_id := fun _ => "paper_w",
      live_result := fun _ => LiveOrderResult.err "unused" }
    "USDT" 10 1000 [("ETH", 30)] [("BTC", 50)] [("ETH/USDT", 1/2), ("BTC/USDT", 50000)]

/-- Counterexample to C6 as stated: with live trading selected and both
credential strings empty, `_get_exchange` still constructs the exchange
client (credential-less, after printing a warning) instead of refusing,
and `execute_order` still dispatches the order to the live execution path,
which attempts the submission (here: failing with an authentication
error).  The live execution path is reachable without credentials. -/
theorem live_mode_without_credentials_reaches_live_path :
    (get_exchange_config TradingMode.live "" "").has_credentials = false
    ∧ (get_exchange_config TradingMode.live "" "").warned_missing_credentials = true
    ∧ execute_order TradingMode.live
        { ticker_last := fun _ => none, paper_id := fun _ => "paper_0",
          live_result := fun _ => LiveOrderResult.err "AuthenticationError" }
        { symbol := "BTC/USDT", side := OrderSide.buy, order_type := OrderType.market,
          quantity := 1 }
      = execute_live
        { ticker_last := fun _ => none, paper_id := fun _ => "paper_0",
          live_result := fun _ => LiveOrderResult.err "AuthenticationError" }
        { symbol := "BTC/USDT", side := OrderSide.buy, order_type := OrderType.market,
          quantity := 1 }
    ∧ (execute_order TradingMode.live
        { ticker_last := fun _ => none, paper_id := fun _ => "paper_0",
          live_result := fun _ => LiveOrderResult.err "AuthenticationError" }
        { symbol := "BTC/USDT", side := OrderSide.buy, order_type := OrderType.market,
          quantity := 1 }).status = OrderStatus.failed := by
  refine ⟨rfl, rfl, rfl, rfl⟩

/-- C6, amended: when live mode is selected with a missing API key or
secret, the executor logs the missing-credential warning and constructs
the exchange client without credentials instead of refusing to enter live
mode; every order is still dispatched to the live execution path, and a
submission the exchange rejects comes back as a terminally `failed`
order. -/
theorem live_mode_without_credentials_warns_and_proceeds
    (api_key api_secret : String) (h : api_key = "" ∨ api_secret = "") :
    get_exchange_config TradingMode.live api_key api_secret
      = { has_credentials := false, warned_missing_credentials := true }
    ∧ ∀ (env : ExecutionEnv) (order : Order),
        execute_order TradingMode.live env order = execute_live env order
        ∧ ∀ msg, env.live_result order = LiveOrderResult.err msg →
            (execute_order TradingMode.live env order).status = OrderStatus.failed := by
  constructor
  · rcases h with h | h <;> subst h <;> simp [get_exchange_config]
  · intro env order
    refine ⟨rfl, fun msg hmsg => ?_⟩
    simp [execute_order, execute_live, hmsg]

/-- Witness for C6 (amended), at empty API key with nonempty secret. -/
theorem live_mode_without_credentials_warns_and_proceeds_witness :
    ("" = "" ∨ "sec" = "")
    ∧ get_exchange_config TradingMode.live "" "sec"
      = { has_credentials := false, warned_missing_credentials := true }
    ∧ (execute_order TradingMode.live
        { ticker_last := fun _ => none, paper_id := fun _ => "paper_1",
          live_result := fun _ => LiveOrderResult.err "boom" }
        { symbol := "ETH/USDT", side := OrderSide.sell, order_type := OrderType.market,
          quantity := 2 }).status = OrderStatus.failed :=
  ⟨Or.inl rfl,
    (live_mode_without_credentials_warns_and_proceeds "" "sec" (Or.inl rfl)).1,
    ((live_mode_without_credentials_warns_and_proceeds "" "sec" (Or.inl rfl)).2
      { ticker_last := fun _ => none, paper_id := fun _ => "paper_1",
        live_result := fun _ => LiveOrderResult.err "boom" }
      { symbol := "ETH/USDT", side := OrderSide.sell, order_type := OrderType.market,
        quantity := 2 }).2 "boom" rfl⟩

theorem fullSymbol_injective (base : String) {s t : String}
    (h : fullSymbol s base = fullSymbol t base) : s = t := by
  unfold fullSymbol at h
  have h1 : (s ++ "/").data ++ base.data = (t ++ "/").data ++ base.data := by
    have := congrArg String.data h
    simpa [String.data_append] using this
  have h2 : (s ++ "/").data = (t ++ "/").data := List.append_cancel_right h1
  have h3 : s.data ++ "/".data = t.data ++ "/".data := by
    simpa [String.data_append] using h2
  have h4 : s.data = t.data := List.append_cancel_right h3
  cases s; cases t
  exact congrArg String.mk h4

theorem syncEntry_quantity (base : String) (old : List (String × Position))
    (sym : String) (qty : ℚ) : (syncEntry base old sym qty).quantity = qty := by
  unfold syncEntry
  split <;> rfl

theorem syncEntry_avg (base : String) (old : List (String × Position))
    (sym : String) (qty : ℚ) :
    (syncEntry base old sym qty).average_entry_price
      = (dictGet old (fullSymbol sym base)).elim 0 Position.average_entry_price := by
  unfold syncEntry
  cases h : dictGet old (fullSymbol sym base) <;> simp [h]

theorem syncEntry_stable (base : String) (old2 old1 : List (String × Position))
    (sym : String) (qty : ℚ)
    (h : dictGet old2 (fullSymbol sym base) = some (syncEntry base old1 sym qty)) :
    syncEntry base old2 sym qty = syncEntry base old1 sym qty := by
  have hq : (syncEntry base old1 sym qty).quantity = qty := syncEntry_quantity _ _ _ _
  conv_lhs => unfold syncEntry
  rw [h]
  cases hE : syncEntry base old1 sym qty with
  | mk s' q' a' c' u' up' =>
      rw [hE] at hq
      simp only at hq
      simp [hq]

theorem buildSyncedPositions_congr (base : String)
    (old2 old1 : List (String × Position)) (bal : List (String × ℚ))
    (H : ∀ sym qty, (sym, qty) ∈ bal → ¬(sym = base ∨ qty ≤ 0) →
        syncEntry base old2 sym qty = syncEntry base old1 sym qty) :
    buildSyncedPositions base old2 bal = buildSyncedPositions base old1 bal := by
  induction bal with
  | nil => rfl
  | cons e rest ih =>
      obtain ⟨sym, qty⟩ := e
      by_cases hc : sym = base ∨ qty ≤ 0
      · simp only [buildSyncedPositions, if_pos hc]
        exact ih (fun s q hm hn => H s q (List.mem_cons_of_mem _ hm) hn)
      · simp only [buildSyncedPositions, if_neg hc]
        rw [H sym qty (List.mem_cons_self _ _) hc,
          ih (fun s q hm hn => H s q (List.mem_cons_of_mem _ hm) hn)]

theorem dictGet_buildSyncedPositions (base : String) (old : List (String × Position))
    (bal : List (String × ℚ)) (hnd : (bal.map Prod.fst).Nodup)
    (sym : String) (qty : ℚ) (hmem : (sym, qty) ∈ bal) (hs : sym ≠ base) (hq : 0 < qty) :
    dictGet (buildSyncedPositions base old bal) (fullSymbol sym base)
      = some (syncEntry base old sym qty) := by
  induction bal with
  | nil => simp at hmem
  | cons e rest ih =>
      obtain ⟨sym0, q0⟩ := e
      simp only [List.map_cons, List.nodup_cons] at hnd
      rcases List.mem_cons.mp hmem with heq | hmem'
      · obtain ⟨rfl, rfl⟩ := Prod.mk.injEq .. ▸ heq
        have hc : ¬(sym = base ∨ qty ≤ 0) := by
          push_neg
          exact ⟨hs, hq⟩
        simp [buildSyncedPositions, if_neg hc, dictGet_cons]
      · have hsymmem : sym ∈ rest.map Prod.fst :=
          List.mem_map.mpr ⟨(sym, qty), hmem', rfl⟩
        by_cases hc : sym0 = base ∨ q0 ≤ 0
        · simp only [buildSyncedPositions, if_pos hc]
          exact ih hnd.2 hmem'
        · have hne : sym0 ≠ sym := fun hE => hnd.1 (hE ▸ hsymmem)
          simp only [buildSyncedPositions, if_neg hc, dictGet_cons]
          rw [if_neg (fun hfull => hne (fullSymbol_injective base hfull))]
          exact ih hnd.2 hmem'

theorem mem_buildSyncedPositions (base : String) (old : List (String × Position))
    (bal : List (String × ℚ)) (e : String × Position)
    (he : e ∈ buildSyncedPositions base old bal) :
    ∃ sym qty, (sym, qty) ∈ bal ∧ sym ≠ base ∧ 0 < qty
      ∧ e.1 = fullSymbol sym base ∧ e.2.quantity = qty := by
  induction bal with
  | nil => simp [buildSyncedPositions] at he
  | cons b rest ih =>
      obtain ⟨sym0, q0⟩ := b
      by_cases hc : sym0 = base ∨ q0 ≤ 0
      · simp only [buildSyncedPositions, if_pos hc] at he
        obtain ⟨sym, qty, hm, h1, h2, h3, h4⟩ := ih he
        exact ⟨sym, qty, List.mem_cons_of_mem _ hm, h1, h2, h3, h4⟩
      · simp only [buildSyncedPositions, if_neg hc] at he
        push_neg at hc
        rcases List.mem_cons.mp he with heq | he'
        · subst heq
          exact ⟨sym0, q0, List.mem_cons_self _ _, hc.1, hc.2, rfl,
            syncEntry_quantity _ _ _ _⟩
        · obtain ⟨sym, qty, hm, h1, h2, h3, h4⟩ := ih he'
          exact ⟨sym, qty, List.mem_cons_of_mem _ hm, h1, h2, h3, h4⟩

/-- C7: `sync_from_exchange` is idempotent (a second sync with identical
balances reproduces the identical `PortfolioState`), and it is a full
replace: the cash balance becomes the settlement-currency balance entry,
every non-zero non-settlement balance becomes a position holding the
exchange-reported quantity — keeping the previously known cost basis for
symbols already held and cost basis 0 for brand-new symbols — and every
position after the sync comes from such a balance entry (anything else is
dropped). -/
theorem sync_from_exchange_idempotent_full_replace
    (base : String) (s : PortfolioState) (bal : List (String × ℚ))
    (hnd : (bal.map Prod.fst).Nodup) :
    sync_from_exchange base (sync_from_exchange base s bal) bal
        = sync_from_exchange base s bal
    ∧ (sync_from_exchange base s bal).cash_balance = dictGetD bal base 0
    ∧ (∀ sym qty, (sym, qty) ∈ bal → sym ≠ base → 0 < qty →
        ∃ p, dictGet (sync_from_exchange base s bal).positions (fullSymbol sym base)
              = some p
          ∧ p.quantity = qty
          ∧ p.average_entry_price
              = (dictGet s.positions (fullSymbol sym base)).elim 0
                  Position.average_entry_price)
    ∧ (∀ e ∈ (sync_from_exchange base s bal).positions,
        ∃ sym qty, (sym, qty) ∈ bal ∧ sym ≠ base ∧ 0 < qty
          ∧ e.1 = fullSymbol sym base ∧ e.2.quantity = qty) := by
  refine ⟨?_, rfl, ?_, ?_⟩
  · have hpos : buildSyncedPositions base (buildSyncedPositions base s.positions bal) bal
        = buildSyncedPositions base s.positions bal := by
      refine buildSyncedPositions_congr base _ _ bal ?_
      intro sym qty hm hn
      push_neg at hn
      exact syncEntry_stable base _ _ sym qty
        (dictGet_buildSyncedPositions base s.positions bal hnd sym qty hm hn.1 hn.2)
    simp [sync_from_exchange, hpos]
  · intro sym qty hm hs hq
    refine ⟨syncEntry base s.positions sym qty, ?_, syncEntry_quantity _ _ _ _,
      syncEntry_avg _ _ _ _⟩
    exact dictGet_buildSyncedPositions base s.positions bal hnd sym qty hm hs hq
  · intro e he
    exact mem_buildSyncedPositions base s.positions bal e he

/-- Witness for C7: syncing the three-position example ledger with
balances `{USDT: 500, BTC: 3, DOGE: 7}` — BTC already held (cost basis
60000 preserved), DOGE brand new (cost basis 0). -/
theorem sync_from_exchange_idempotent_full_replace_witness :
    (([("USDT", (500 : ℚ)), ("BTC", 3), ("DOGE", 7)].map Prod.fst).Nodup)
    ∧ (sync_from_exchange "USDT"
          (sync_from_exchange "USDT" examplePortfolioThreePositions
            [("USDT", 500), ("BTC", 3), ("DOGE", 7)])
          [("USDT", 500), ("BTC", 3), ("DOGE", 7)]
        = sync_from_exchange "USDT" examplePortfolioThreePositions
            [("USDT", 500), ("BTC", 3), ("DOGE", 7)]
      ∧ (sync_from_exchange "USDT" examplePortfolioThreePositions
          [("USDT", 500), ("BTC", 3), ("DOGE", 7)]).cash_balance
          = dictGetD [("USDT", 500), ("BTC", 3), ("DOGE", 7)] "USDT" 0
      ∧ (∀ sym qty, (sym, qty) ∈ [("USDT", (500 : ℚ)), ("BTC", 3), ("DOGE", 7)]
            → sym ≠ "USDT" → 0 < qty →
          ∃ p, dictGet (sync_from_exchange "USDT" examplePortfolioThreePositions
                  [("USDT", 500), ("BTC", 3), ("DOGE", 7)]).positions
                  (fullSymbol sym "USDT")
                = some p
            ∧ p.quantity = qty
            ∧ p.average_entry_price
                = (dictGet examplePortfolioThreePositions.positions
                    (fullSymbol sym "USDT")).elim 0 Position.average_entry_price)
      ∧ (∀ e ∈ (sync_from_exchange "USDT" examplePortfolioThreePositions
            [("USDT", 500), ("BTC", 3), ("DOGE", 7)]).positions,
          ∃ sym qty, (sym, qty) ∈ [("USDT", (500 : ℚ)), ("BTC", 3), ("DOGE", 7)]
            ∧ sym ≠ "USDT" ∧ 0 < qty
            ∧ e.1 = fullSymbol sym "USDT" ∧ e.2.quantity = qty)) :=
  ⟨by simp,
    sync_from_exchange_idempotent_full_replace "USDT" examplePortfolioThreePositions
      [("USDT", 500), ("BTC", 3), ("DOGE", 7)] (by simp)⟩

theorem allocator_record_trade_of_get (perfs : List (String × StrategyPerformance))
    (name : String) (p : StrategyPerformance) (pnl pct : ℚ)
    (h : dictGet perfs name = some p) :
    allocator_record_trade perfs name pnl pct
      = dictInsert perfs name (p.record_trade pnl pct) := by
  simp [allocator_record_trade, h]

theorem recordTrades_of_get (name : String) (ts : List (ℚ × ℚ))
    (perfs : List (String × StrategyPerformance)) (p : StrategyPerformance)
    (h : dictGet perfs name = some p) :
    recordTrades name ts perfs
      = dictInsert perfs name
          (ts.foldl (fun q t => q.record_trade t.1 t.2) p) := by
  induction ts generalizing perfs p with
  | nil =>
      simp only [recordTrades, List.foldl_nil]
      exact (dictInsert_of_get_eq perfs name p h).symm
  | cons t rest ih =>
      have h1 : recordTrades name (t :: rest) perfs
          = recordTrades name rest (allocator_record_trade perfs name t.1 t.2) := rfl
      rw [h1, allocator_record_trade_of_get perfs name p t.1 t.2 h,
        ih (dictInsert perfs name (p.record_trade t.1 t.2)) (p.record_trade t.1 t.2)
          (dictGet_dictInsert_self _ _ _),
        dictInsert_dictInsert]
      rfl

theorem record_trade_win_step (p : StrategyPerformance) (pnl pct : ℚ) (hp : 0 < pnl)
    (hw : p.winning_trades = p.total_trades) :
    (p.record_trade pnl pct).total_trades = p.total_trades + 1
    ∧ (p.record_trade pnl pct).winning_trades = (p.record_trade pnl pct).total_trades
    ∧ (p.record_trade pnl pct).win_rate = 1
    ∧ (p.record_trade pnl pct).total_pnl_pct = p.total_pnl_pct + pct
    ∧ (p.record_trade pnl pct).current_allocation = p.current_allocation := by
  simp only [StrategyPerformance.record_trade, StrategyPerformance.update_metrics,
    decide_eq_true_eq, if_pos hp, hw]
  norm_num
  rw [div_self (by positivity)]

theorem fold_wins_spec (ts : List (ℚ × ℚ)) (hpos : ∀ t ∈ ts, 0 < t.1)
    (p : StrategyPerformance) (hw : p.winning_trades = p.total_trades) :
    (ts.foldl (fun q t => q.record_trade t.1 t.2) p).total_trades
        = p.total_trades + ts.length
    ∧ (ts.foldl (fun q t => q.record_trade t.1 t.2) p).winning_trades
        = (ts.foldl (fun q t => q.record_trade t.1 t.2) p).total_trades
    ∧ (ts.foldl (fun q t => q.record_trade t.1 t.2) p).total_pnl_pct
        = p.total_pnl_pct + (ts.map Prod.snd).sum
    ∧ (ts.foldl (fun q t => q.record_trade t.1 t.2) p).current_allocation
        = p.current_allocation
    ∧ (ts ≠ [] → (ts.foldl (fun q t => q.record_trade t.1 t.2) p).win_rate = 1) := by
  induction ts generalizing p with
  | nil => simp [hw]
  | cons t rest ih =>
      have ht := record_trade_win_step p t.1 t.2 (hpos t (List.mem_cons_self _ _)) hw
      have hrest := ih (fun u hu => hpos u (List.mem_cons_of_mem _ hu))
        (p.record_trade t.1 t.2) ht.2.1
      simp only [List.foldl_cons, List.map_cons, List.sum_cons, List.length_cons]
      refine ⟨by rw [hrest.1, ht.1]; omega, hrest.2.1, ?_, ?_, fun _ => ?_⟩
      · rw [hrest.2.2.1, ht.2.2.2.1]; ring
      · rw [hrest.2.2.2.1, ht.2.2.2.2]
      · rcases eq_or_ne rest [] with hr | hr
        · subst hr; simpa using ht.2.2.1
        · exact hrest.2.2.2.2 hr

theorem record_trade_loss_step (p : StrategyPerformance) (pnl pct : ℚ) (hp : pnl < 0)
    (hw : p.winning_trades = 0) :
    (p.record_trade pnl pct).total_trades = p.total_trades + 1
    ∧ (p.record_trade pnl pct).winning_trades = 0
    ∧ (p.record_trade pnl pct).win_rate = 0
    ∧ (p.record_trade pnl pct).total_pnl_pct = p.total_pnl_pct + pct
    ∧ (p.record_trade pnl pct).current_allocation = p.current_allocation := by
  simp only [StrategyPerformance.record_trade, StrategyPerformance.update_metrics,
    decide_eq_true_eq, if_neg (by linarith : ¬ (0:ℚ) < pnl), hw]
  norm_num

theorem fold_losses_spec (ts : List (ℚ × ℚ)) (hneg : ∀ t ∈ ts, t.1 < 0)
    (p : StrategyPerformance) (hw : p.winning_trades = 0) :
    (ts.foldl (fun q t => q.record_trade t.1 t.2) p).total_trades
        = p.total_trades + ts.length
    ∧ (ts.foldl (fun q t => q.record_trade t.1 t.2) p).winning_trades = 0
    ∧ (ts.foldl (fun q t => q.record_trade t.1 t.2) p).total_pnl_pct
        = p.total_pnl_pct + (ts.map Prod.snd).sum
    ∧ (ts.foldl (fun q t => q.record_trade t.1 t.2) p).current_allocation
        = p.current_allocation
    ∧ (ts ≠ [] → (ts.foldl (fun q t => q.record_trade t.1 t.2) p).win_rate = 0) := by
  induction ts generalizing p with
  | nil => simp [hw]
  | cons t rest ih =>
      have ht := record_trade_loss_step p t.1 t.2 (hneg t (List.mem_cons_self _ _)) hw
      have hrest := ih (fun u hu => hneg u (List.mem_cons_of_mem _ hu))
        (p.record_trade t.1 t.2) ht.2.1
      simp only [List.foldl_cons, List.map_cons, List.sum_cons, List.length_cons]
      refine ⟨by rw [hrest.1, ht.1]; omega, hrest.2.1, ?_, ?_, fun _ => ?_⟩
      · rw [hrest.2.2.1, ht.2.2.2.1]; ring
      · rw [hrest.2.2.2.1, ht.2.2.2.2]
      · rcases eq_or_ne rest [] with hr | hr
        · subst hr; simpa using ht.2.2.1
        · exact hrest.2.2.2.2 hr

theorem rebalance_three (cfg : AllocatorConfig) (a b c : String)
    (pa pb pc : StrategyPerformance) (u v w : ℚ)
    (hu : clamped_update cfg (mean_score [(a, pa), (b, pb), (c, pc)]) pa = u)
    (hv : clamped_update cfg (mean_score [(a, pa), (b, pb), (c, pc)]) pb = v)
    (hw : clamped_update cfg (mean_score [(a, pa), (b, pb), (c, pc)]) pc = w)
    (hsum : u + v + w = 1) :
    rebalance cfg [(a, pa), (b, pb), (c, pc)] = [(a, u), (b, v), (c, w)] := by
  simp only [rebalance]
  rw [if_neg (by simp)]
  simp only [List.map_cons, List.map_nil, hu, hv, hw, List.sum_cons, List.sum_nil]
  have h1 : u + (v + (w + 0)) = 1 := by linarith
  rw [h1, if_pos (by norm_num : (0:ℚ) < 1)]
  simp

theorem sum_neg_of_all_neg (l : List ℚ) (h : ∀ x ∈ l, x < 0) (hne : l ≠ []) :
    l.sum < 0 := by
  induction l with
  | nil => simp at hne
  | cons x rest ih =>
      rcases eq_or_ne rest [] with hr | hr
      · subst hr; simpa using h x (by simp)
      · have hrest := ih (fun y hy => h y (List.mem_cons_of_mem _ hy)) hr
        have hx := h x (List.mem_cons_self _ _)
        simp only [List.sum_cons]
        linarith

theorem rebalanceScenarioState_eq (wins losses : List (ℚ × ℚ)) :
    rebalanceScenarioState wins losses
      = [("A", scenarioPerfA wins), ("B", scenarioPerfB losses), ("C", scenarioPerfC)] := by
  unfold rebalanceScenarioState
  rw [recordTrades_of_get "A" wins threeStrategiesRegistered
    { strategy_name := "A", current_allocation := 1/3 }
    (by simp [threeStrategiesRegistered, register_strategy, dictInsert, dictGet])]
  have h1 : dictInsert threeStrategiesRegistered "A"
      (wins.foldl (fun q t => q.record_trade t.1 t.2)
        { strategy_name := "A", current_allocation := 1/3 })
      = [("A", scenarioPerfA wins),
         ("B", { strategy_name := "B", current_allocation := 1/3 }),
         ("C", scenarioPerfC)] := by
    simp [threeStrategiesRegistered, register_strategy, dictInsert, scenarioPerfA,
      scenarioPerfC]
  rw [h1]
  rw [recordTrades_of_get "B" losses _
    { strategy_name := "B", current_allocation := 1/3 } (by simp [dictGet])]
  simp [dictInsert, scenarioPerfB]

set_option maxHeartbeats 1000000 in
/-- C8, amended: after registering 3 strategies at equal initial
allocation 1/3, recording for strategy A only winning trades (positive
pnl, non-negative pnl percent) whose cumulative pnl percent is at most 1
(100%), and for strategy B only losing trades (negative pnl and pnl
percent), a single rebalance with the source's default configuration
(minAllocation 0.05, maxAllocation 0.5, learningRate 0.1) yields
`allocation(A) > allocation(C) > allocation(B)`, all three inside
`[minAllocation, maxAllocation]`, and all three summing exactly to 1.
(Without the cumulative-pnl-percent bound the clamping and normalization
can push `allocation(A)` above `maxAllocation` and collapse
`allocation(C) = allocation(B)`: see the counterexample.) -/
theorem capital_allocator_rebalance_ranking
    (wins losses : List (ℚ × ℚ)) (hwne : wins ≠ []) (hlne : losses ≠ [])
    (hwin : ∀ t ∈ wins, 0 < t.1 ∧ 0 ≤ t.2)
    (hwsum : (wins.map Prod.snd).sum ≤ 1)
    (hloss : ∀ t ∈ losses, t.1 < 0 ∧ t.2 < 0) :
    (rebalance {} (rebalanceScenarioState wins losses)).map Prod.fst = ["A", "B", "C"]
    ∧ dictGetD (rebalance {} (rebalanceScenarioState wins losses)) "C" 0
        < dictGetD (rebalance {} (rebalanceScenarioState wins losses)) "A" 0
    ∧ dictGetD (rebalance {} (rebalanceScenarioState wins losses)) "B" 0
        < dictGetD (rebalance {} (rebalanceScenarioState wins losses)) "C" 0
    ∧ (∀ e ∈ rebalance {} (rebalanceScenarioState wins losses),
        ({} : AllocatorConfig).min_allocation ≤ e.2
        ∧ e.2 ≤ ({} : AllocatorConfig).max_allocation)
    ∧ ((rebalance {} (rebalanceScenarioState wins losses)).map Prod.snd).sum = 1 := by
  have hlr : ({} : AllocatorConfig).learning_rate = 0.1 := rfl
  have hmin : ({} : AllocatorConfig).min_allocation = 0.05 := rfl
  have hmax : ({} : AllocatorConfig).max_allocation = 0.5 := by
    show (0.50 : ℚ) = 0.5
    norm_num
  -- performance facts for A
  have hA := fold_wins_spec wins (fun t ht => (hwin t ht).1)
    { strategy_name := "A", current_allocation := 1/3 } rfl
  have hAtt : (scenarioPerfA wins).total_trades = wins.length := by
    simpa [scenarioPerfA] using hA.1
  have hAwr : (scenarioPerfA wins).win_rate = 1 := hA.2.2.2.2 hwne
  have hApct : (scenarioPerfA wins).total_pnl_pct = (wins.map Prod.snd).sum := by
    simpa [scenarioPerfA] using hA.2.2.1
  have hAalloc : (scenarioPerfA wins).current_allocation = 1/3 := by
    simpa [scenarioPerfA] using hA.2.2.2.1
  -- performance facts for B
  have hB := fold_losses_spec losses (fun t ht => (hloss t ht).1)
    { strategy_name := "B", current_allocation := 1/3 } rfl
  have hBtt : (scenarioPerfB losses).total_trades = losses.length := by
    simpa [scenarioPerfB] using hB.1
  have hBwr : (scenarioPerfB losses).win_rate = 0 := hB.2.2.2.2 hlne
  have hBpct : (scenarioPerfB losses).total_pnl_pct = (losses.map Prod.snd).sum := by
    simpa [scenarioPerfB] using hB.2.2.1
  have hBalloc : (scenarioPerfB losses).current_allocation = 1/3 := by
    simpa [scenarioPerfB] using hB.2.2.2.1
  -- score of A
  have hn1 : 0 < wins.length := List.length_pos.mpr hwne
  have hm1 : 0 < losses.length := List.length_pos.mpr hlne
  have hP0 : 0 ≤ (wins.map Prod.snd).sum := by
    refine List.sum_nonneg ?_
    intro x hx
    obtain ⟨t, ht, rfl⟩ := List.mem_map.mp hx
    exact (hwin t ht).2
  have hv_lo : (1:ℚ)/10 ≤ min ((wins.length : ℚ)/10) 1 := by
    rcases min_cases ((wins.length : ℚ)/10) 1 with ⟨h1, _⟩ | ⟨h1, _⟩ <;> rw [h1]
    · have : (1:ℚ) ≤ (wins.length : ℚ) := by exact_mod_cast hn1
      linarith
    · norm_num
  have hv_hi : min ((wins.length : ℚ)/10) 1 ≤ 1 := min_le_right _ _
  have hsA : perf_score (scenarioPerfA wins)
      = 1 * 0.4 + (0.5 + (wins.map Prod.snd).sum * 2) * 0.4
        + min ((wins.length : ℚ)/10) 1 * 0.2 := by
    simp only [perf_score, hAtt, hAwr, hApct]
    rw [if_pos hn1]
    exact max_eq_left (by linarith)
  have hsA_lo : (0.62 : ℚ) ≤ perf_score (scenarioPerfA wins) := by
    rw [hsA]; linarith
  have hsA_hi : perf_score (scenarioPerfA wins) ≤ 1.6 := by
    rw [hsA]; linarith
  -- score of B
  have hL_neg : (losses.map Prod.snd).sum < 0 := by
    refine sum_neg_of_all_neg _ ?_ (by simpa using hlne)
    intro x hx
    obtain ⟨t, ht, rfl⟩ := List.mem_map.mp hx
    exact (hloss t ht).2
  have hw_hi : min ((losses.length : ℚ)/10) 1 ≤ 1 := min_le_right _ _
  have hw_lo : (0:ℚ) ≤ min ((losses.length : ℚ)/10) 1 := by
    refine le_min (by positivity) (by norm_num)
  have hsB_lo : (0.1 : ℚ) ≤ perf_score (scenarioPerfB losses) := by
    simp only [perf_score]
    exact le_max_right _ _
  have hsB_hi : perf_score (scenarioPerfB losses) < 0.4 := by
    simp only [perf_score, hBtt, hBwr, hBpct]
    rw [if_pos hm1]
    refine max_lt ?_ (by norm_num)
    linarith
  -- score of C
  have hsC : perf_score scenarioPerfC = 0.4 := by
    simp only [perf_score, scenarioPerfC]
    norm_num [min_def, max_def]
  -- the mean of the three scores
  have hm : mean_score [("A", scenarioPerfA wins), ("B", scenarioPerfB losses),
      ("C", scenarioPerfC)]
      = (perf_score (scenarioPerfA wins) + perf_score (scenarioPerfB losses)
          + perf_score scenarioPerfC) / 3 := by
    simp [mean_score]
    ring
  have hm_lo : (1.12 : ℚ)/3 ≤ mean_score [("A", scenarioPerfA wins),
      ("B", scenarioPerfB losses), ("C", scenarioPerfC)] := by
    rw [hm, hsC]; linarith
  have hm_hi : mean_score [("A", scenarioPerfA wins), ("B", scenarioPerfB losses),
      ("C", scenarioPerfC)] ≤ 0.8 := by
    rw [hm, hsC]; linarith
  -- clamped updates reduce to the raw multiplicative updates
  have hclampA : clamped_update {} (mean_score [("A", scenarioPerfA wins),
      ("B", scenarioPerfB losses), ("C", scenarioPerfC)]) (scenarioPerfA wins)
      = 1/3 * (1 + 0.1 * (perf_score (scenarioPerfA wins)
          - mean_score [("A", scenarioPerfA wins), ("B", scenarioPerfB losses),
              ("C", scenarioPerfC)])) := by
    simp only [clamped_update, hlr, hmin, hmax, hAalloc]
    rw [max_eq_right (by linarith [hsA_lo, hm_hi]),
      min_eq_right (by linarith [hsA_hi, hm_lo])]
  have hclampB : clamped_update {} (mean_score [("A", scenarioPerfA wins),
      ("B", scenarioPerfB losses), ("C", scenarioPerfC)]) (scenarioPerfB losses)
      = 1/3 * (1 + 0.1 * (perf_score (scenarioPerfB losses)
          - mean_score [("A", scenarioPerfA wins), ("B", scenarioPerfB losses),
              ("C", scenarioPerfC)])) := by
    simp only [clamped_update, hlr, hmin, hmax, hBalloc]
    rw [max_eq_right (by linarith [hsB_lo, hm_hi]),
      min_eq_right (by linarith [hsB_hi, hm_lo])]
  have hCalloc : scenarioPerfC.current_allocation = 1/3 := rfl
  have hclampC : clamped_update {} (mean_score [("A", scenarioPerfA wins),
      ("B", scenarioPerfB losses), ("C", scenarioPerfC)]) scenarioPerfC
      = 1/3 * (1 + 0.1 * (perf_score scenarioPerfC
          - mean_score [("A", scenarioPerfA wins), ("B", scenarioPerfB losses),
              ("C", scenarioPerfC)])) := by
    simp only [clamped_update, hlr, hmin, hmax, hCalloc]
    rw [max_eq_right (by linarith [hsC, hm_hi]),
      min_eq_right (by linarith [hsC, hm_lo])]
  -- the three updates sum to exactly 1
  have hsum : 1/3 * (1 + 0.1 * (perf_score (scenarioPerfA wins)
        - mean_score [("A", scenarioPerfA wins), ("B", scenarioPerfB losses),
            ("C", scenarioPerfC)]))
      + 1/3 * (1 + 0.1 * (perf_score (scenarioPerfB losses)
          - mean_score [("A", scenarioPerfA wins), ("B", scenarioPerfB losses),
              ("C", scenarioPerfC)]))
      + 1/3 * (1 + 0.1 * (perf_score scenarioPerfC
          - mean_score [("A", scenarioPerfA wins), ("B", scenarioPerfB losses),
              ("C", scenarioPerfC)])) = 1 := by
    rw [hm]; ring
  have hreb : rebalance {} (rebalanceScenarioState wins losses)
      = [("A", 1/3 * (1 + 0.1 * (perf_score (scenarioPerfA wins)
            - mean_score [("A", scenarioPerfA wins), ("B", scenarioPerfB losses),
                ("C", scenarioPerfC)]))),
         ("B", 1/3 * (1 + 0.1 * (perf_score (scenarioPerfB losses)
            - mean_score [("A", scenarioPerfA wins), ("B", scenarioPerfB losses),
                ("C", scenarioPerfC)]))),
         ("C", 1/3 * (1 + 0.1 * (perf_score scenarioPerfC
            - mean_score [("A", scenarioPerfA wins), ("B", scenarioPerfB losses),
                ("C", scenarioPerfC)])))] := by
    rw [rebalanceScenarioState_eq]
    exact rebalance_three {} "A" "B" "C" _ _ _ _ _ _ hclampA hclampB hclampC hsum
  rw [hreb]
  refine ⟨by simp, ?_, ?_, ?_, ?_⟩
  · simp [dictGetD, dictGet]
    linarith [hsA_lo, hsC]
  · simp [dictGetD, dictGet]
    linarith [hsB_hi, hsC]
  · intro e he
    rw [hmin, hmax]
    rcases List.mem_cons.mp he with rfl | he'
    · exact ⟨by linarith [hsA_lo, hm_hi], by linarith [hsA_hi, hm_lo]⟩
    rcases List.mem_cons.mp he' with rfl | he''
    · exact ⟨by linarith [hsB_lo, hm_hi], by linarith [hsB_hi, hm_lo]⟩
    rcases List.mem_cons.mp he'' with rfl | he'''
    · exact ⟨by linarith [hsC, hm_hi], by linarith [hsC, hm_lo]⟩
    · simp at he'''
  · simp only [List.map_cons, List.map_nil, List.sum_cons, List.sum_nil]
    linarith [hsum]

/-- Counterexample to C8 as stated: one winning trade for A with
cumulative pnl percent 40 (4000%) and one losing trade for B drive A's
score to 32.62; the multiplicative update then clamps A at
`maxAllocation` and pushes B and C below `minAllocation`, and the final
normalization yields allocations `(5/6, 1/12, 1/12)`: `allocation(C)` is
NOT strictly greater than `allocation(B)`, and `allocation(A) = 5/6`
exceeds `maxAllocation = 0.5`. -/
theorem extreme_win_pct_breaks_rebalance_ordering :
    rebalance {} (rebalanceScenarioState [(10, 40)] [(-10, -1)])
      = [("A", 5/6), ("B", 1/12), ("C", 1/12)]
    ∧ ¬ (dictGetD (rebalance {} (rebalanceScenarioState [(10, 40)] [(-10, -1)])) "B" 0
          < dictGetD (rebalance {} (rebalanceScenarioState [(10, 40)] [(-10, -1)])) "C" 0)
    ∧ ¬ (dictGetD (rebalance {} (rebalanceScenarioState [(10, 40)] [(-10, -1)])) "A" 0
          ≤ ({} : AllocatorConfig).max_allocation) := by
  have h : rebalance {} (rebalanceScenarioState [(10, 40)] [(-10, -1)])
      = [("A", 5/6), ("B", 1/12), ("C", 1/12)] := by
    simp [rebalanceScenarioState, recordTrades, threeStrategiesRegistered,
      register_strategy, allocator_record_trade, StrategyPerformance.record_trade,
      StrategyPerformance.update_metrics, dictGet, dictInsert, rebalance, mean_score,
      clamped_update, perf_score, min_def, max_def]
    norm_num
  refine ⟨h, ?_, ?_⟩ <;> rw [h] <;> simp [dictGetD, dictGet] <;> norm_num

/-- Witness for C8 (amended): one win `(pnl 5, pct 5%)` for A and one
loss `(pnl −5, pct −5%)` for B satisfy the hypotheses, and the rebalance
ranking follows. -/
theorem capital_allocator_rebalance_ranking_witness :
    ([((5:ℚ), (1/20:ℚ))] ≠ []) ∧ ([((-5:ℚ), (-1/20:ℚ))] ≠ [])
    ∧ (∀ t ∈ [((5:ℚ), (1/20:ℚ))], 0 < t.1 ∧ 0 ≤ t.2)
    ∧ (List.map Prod.snd [((5:ℚ), (1/20:ℚ))]).sum ≤ 1
    ∧ (∀ t ∈ [((-5:ℚ), (-1/20:ℚ))], t.1 < 0 ∧ t.2 < 0)
    ∧ ((rebalance {} (rebalanceScenarioState [(5, 1/20)] [(-5, -1/20)])).map Prod.fst
          = ["A", "B", "C"]
      ∧ dictGetD (rebalance {} (rebalanceScenarioState [(5, 1/20)] [(-5, -1/20)])) "C" 0
          < dictGetD (rebalance {} (rebalanceScenarioState [(5, 1/20)] [(-5, -1/20)])) "A" 0
      ∧ dictGetD (rebalance {} (rebalanceScenarioState [(5, 1/20)] [(-5, -1/20)])) "B" 0
          < dictGetD (rebalance {} (rebalanceScenarioState [(5, 1/20)] [(-5, -1/20)])) "C" 0
      ∧ (∀ e ∈ rebalance {} (rebalanceScenarioState [(5, 1/20)] [(-5, -1/20)]),
          ({} : AllocatorConfig).min_allocation ≤ e.2
          ∧ e.2 ≤ ({} : AllocatorConfig).max_allocation)
      ∧ ((rebalance {} (rebalanceScenarioState [(5, 1/20)] [(-5, -1/20)])).map
            Prod.snd).sum = 1) :=
  ⟨by simp, by simp, by norm_num, by norm_num, by norm_num,
    capital_allocator_rebalance_ranking [(5, 1/20)] [(-5, -1/20)]
      (by simp) (by simp) (by norm_num) (by norm_num) (by norm_num)⟩

end Moneymaker
